import Mathlib

set_option autoImplicit false
set_option linter.unusedVariables false

/-! Shallow embedding of the result-distribution pipeline of
brightsign-npu-object-extension: the detection data model (include/yolo.h),
the inference result as used by src/publisher.cpp and the tests, the class
filter helpers (src/utils.cc), the seven message formatters and the publisher
loop (src/publisher.cpp), the file transport (src/transports/file_transport.cpp)
and the pipeline wiring (src/main.cpp). -/

/-- Bounding box, from yolo.h `struct box_rect_t` (four `int` fields). -/
structure BoxRect where
  left : Int
  top : Int
  right : Int
  bottom : Int
  deriving DecidableEq, Repr

/-- One detection, from yolo.h `struct object_detect_result`: `box`,
`prop` (a C `float`; modelled as `Rat` — the only comparisons performed on it
are against `0.0f`, which are exact in both models), `cls_id` (`int`) and
`name` (a fixed-size `char` array, modelled as `String`). -/
structure ObjectDetectResult where
  box : BoxRect
  prop : Rat
  cls_id : Int
  name : String
  deriving DecidableEq, Repr

/-- Modelled from the spec: `struct InferenceResult` is declared in
`inference.h`, which is not under src/; its fields are fixed by the uses in
src/publisher.cpp and the tests: a capture `timestamp`
(`std::chrono::system_clock::time_point`, modelled as the `time_t` seconds
value that `to_time_t` extracts, since every formatter only ever reads
`to_time_t(result.timestamp)`), `detections` (an `object_detect_result_list`,
i.e. a `count` plus the first `count` entries of a fixed array — modelled as
the list of those entries, so `detections.count` is the list length), and the
`selected_classes` filter active when the result was produced. -/
structure InferenceResult where
  timestamp : Int
  detections : List ObjectDetectResult
  selected_classes : List Int
  deriving DecidableEq, Repr

/-- src/utils.cc `isClassSelected` (lines 156-164): empty selection means all
classes are selected, otherwise membership via `std::find`. -/
def isClassSelected (class_id : Int) (selected_classes : List Int) : Bool :=
  if selected_classes.isEmpty then
    true
  else
    selected_classes.contains class_id

/-- `class_counts[class_name]++` on an `unordered_map`, modelled as an
insertion-ordered association list: increment the entry in place when the key
is present, otherwise append it with the default-constructed value 0
incremented to 1 (nlohmann/std map iteration order is abstracted by insertion
order; no theorem below depends on an iteration order among distinct keys). -/
def bumpCount : List (String × Int) → String → List (String × Int)
  | [], nm => [(nm, 1)]
  | (k, v) :: rest, nm =>
    if k = nm then (k, v + 1) :: rest else (k, v) :: bumpCount rest nm

/-- `j[key] = value` on a JSON object of integer-valued fields: update in
place when the key is present, otherwise append. -/
def setKey : List (String × Int) → String → Int → List (String × Int)
  | [], k, v => [(k, v)]
  | (k', v') :: rest, k, v =>
    if k' = k then (k', v) :: rest else (k', v') :: setKey rest k v

/-- Join a list of strings with a separator. -/
def joinSep (sep : String) : List String → String
  | [] => ""
  | [x] => x
  | x :: y :: xs => x ++ sep ++ joinSep sep (y :: xs)

/-- Concatenation of a list of strings. -/
def concatAll : List String → String
  | [] => ""
  | x :: xs => x ++ concatAll xs

/-- One `name:count` entry of a BrightScript-variable message. -/
def entryStr (e : String × Int) : String :=
  e.1 ++ ":" ++ toString e.2

/-- The validity test every counting formatter applies (`prop <= 0.0f ||
cls_id < 0` skips the detection): true exactly on the kept side. -/
def validDetection (d : ObjectDetectResult) : Bool :=
  if d.prop ≤ 0 ∨ d.cls_id < 0 then false else true

/-- The same result with the invalid detections removed. -/
def removeInvalid (r : InferenceResult) : InferenceResult :=
  { r with detections := r.detections.filter validDetection }

/-- Field lookup in a JSON object of integer-valued fields (first entry with
the given key). -/
def getField : List (String × Int) → String → Option Int
  | [], _ => none
  | (k, v) :: rest, nm => if k = nm then some v else getField rest nm

/-- The keep side of the per-detection test shared by the selective loops
(publisher.cpp lines 46-53, 234-237): valid and filter-selected. -/
def keepDetection (sel : List Int) (d : ObjectDetectResult) : Bool :=
  if d.prop ≤ 0 ∨ d.cls_id < 0 then false
  else isClassSelected d.cls_id sel

/-- Serialization of a JSON object whose values are all integers, in the
field order of the modelled object (`j.dump()`; nlohmann serializes keys in
sorted order — the theorems below only use key presence and values, never
an order among distinct keys). -/
def dumpIntFields (fields : List (String × Int)) : String :=
  "\x7b" ++
    joinSep "," (fields.map (fun e => "\"" ++ e.1 ++ "\":" ++ toString e.2)) ++
    "\x7d"

namespace JsonMessageFormatter

/-- publisher.cpp lines 16-29: count detections by class name, seeded with
`person → 0`, skipping a detection when `prop <= 0.0f || cls_id < 0` or when
it is not in the selected classes. -/
def classCounts (r : InferenceResult) : List (String × Int) :=
  r.detections.foldl
    (fun acc d =>
      if (d.prop ≤ 0 ∨ d.cls_id < 0) ∨
          ¬isClassSelected d.cls_id r.selected_classes then
        acc
      else
        bumpCount acc d.name)
    [("person", 0)]

/-- The JSON object built by publisher.cpp lines 10-34: `j["timestamp"]`
first, then one field per entry of the class-count table. -/
def fields (r : InferenceResult) : List (String × Int) :=
  (classCounts r).foldl (fun j e => setKey j e.1 e.2)
    [("timestamp", r.timestamp)]

/-- publisher.cpp lines 9-37, `JsonMessageFormatter::formatMessage`.
The `suppress_empty` member (publisher.h lines 40-47) is stored by the
constructor and never read by `formatMessage`. -/
def formatMessage (suppress_empty : Bool) (r : InferenceResult) : String :=
  dumpIntFields (fields r)

end JsonMessageFormatter

namespace MappedMessageFormatter

/-- publisher.cpp lines 40-58, `extractSelectedClasses`: keep a detection iff
it is valid (`prop > 0` and `cls_id >= 0` — the loop skips
`prop <= 0.0f || cls_id < 0`) and its class id is selected. -/
def extractSelectedClasses (r : InferenceResult) : List ObjectDetectResult :=
  r.detections.filter (keepDetection r.selected_classes)

/-- publisher.cpp lines 60-66, `mapClassName`: rename via the `class_mapping`
table when present, otherwise keep the original name. -/
def mapClassName (class_mapping : List (String × String)) (nm : String) :
    String :=
  match class_mapping.lookup nm with
  | some mapped => mapped
  | none => nm

/-- The class-count table shared by the Selective formatters (publisher.cpp
lines 138-144 and 160-166): seeded with `person → 0`, bumping the mapped
class name of every extracted detection. -/
def selectiveCounts (class_mapping : List (String × String))
    (r : InferenceResult) : List (String × Int) :=
  (extractSelectedClasses r).foldl
    (fun acc d => bumpCount acc (mapClassName class_mapping d.name))
    [("person", 0)]

end MappedMessageFormatter

namespace BSVariableMessageFormatter

/-- publisher.cpp lines 69-75: the raw `result.detections.count` (no validity
or filter check) followed by the timestamp. -/
def formatMessage (r : InferenceResult) : String :=
  "detection_count:" ++ toString r.detections.length ++ "!!" ++
    "timestamp:" ++ toString r.timestamp

end BSVariableMessageFormatter

/-- The people counter of the Faces formatters (publisher.cpp lines 86-93 and
110-117): count every detection with `cls_id == 0`, with no validity check on
`prop`. -/
def facesPeopleCount (r : InferenceResult) : Int :=
  r.detections.foldl (fun n d => if d.cls_id = 0 then n + 1 else n) 0

namespace FacesJsonMessageFormatter

/-- publisher.cpp lines 83-101, `FacesJsonMessageFormatter::formatMessage`. -/
def formatMessage (r : InferenceResult) : String :=
  dumpIntFields
    (setKey
      (setKey (setKey [] "faces_in_frame_total" (facesPeopleCount r))
        "faces_attending" (facesPeopleCount r))
      "timestamp" r.timestamp)

end FacesJsonMessageFormatter

namespace FacesBSMessageFormatter

/-- publisher.cpp lines 109-125, `FacesBSMessageFormatter::formatMessage`. -/
def formatMessage (r : InferenceResult) : String :=
  "faces_in_frame_total:" ++ toString (facesPeopleCount r) ++ "!!" ++
    "faces_attending:" ++ toString (facesPeopleCount r) ++ "!!" ++
    "timestamp:" ++ toString r.timestamp

end FacesBSMessageFormatter

namespace SelectiveJsonMessageFormatter

/-- publisher.cpp lines 128-152, `SelectiveJsonMessageFormatter`:
`j["timestamp"]` first, then one field per entry of the selective
class-count table. -/
def formatMessage (class_mapping : List (String × String))
    (r : InferenceResult) : String :=
  dumpIntFields
    ((MappedMessageFormatter.selectiveCounts class_mapping r).foldl
      (fun j e => setKey j e.1 e.2) [("timestamp", r.timestamp)])

end SelectiveJsonMessageFormatter

namespace SelectiveBSMessageFormatter

/-- The message-building loop of publisher.cpp lines 169-178: separator
before every entry except the first (`first` flag in the second component). -/
def bodyStep (acc : String × Bool) (e : String × Int) : String × Bool :=
  ((if acc.2 then acc.1 else acc.1 ++ "!!") ++ entryStr e, false)

/-- The `name:count` entries of the message, in table order. -/
def fieldsOf (class_mapping : List (String × String)) (r : InferenceResult) :
    List String :=
  (MappedMessageFormatter.selectiveCounts class_mapping r).map entryStr

/-- publisher.cpp lines 155-187, `SelectiveBSMessageFormatter::formatMessage`:
the `name:count` entries joined by `!!`, then (after a separator when the
body is non-empty) the timestamp. -/
def formatMessage (class_mapping : List (String × String))
    (r : InferenceResult) : String :=
  let counts := MappedMessageFormatter.selectiveCounts class_mapping r
  let body := (counts.foldl bodyStep ("", true)).1
  (if body = "" then body else body ++ "!!") ++
    "timestamp:" ++ toString r.timestamp

end SelectiveBSMessageFormatter

namespace FullJsonMessageFormatter

/-- The detection loop of publisher.cpp lines 231-253 keeps exactly the
valid, filter-selected detections (same skip condition as the other
formatters). -/
def selectedDetections (r : InferenceResult) : List ObjectDetectResult :=
  r.detections.filter (keepDetection r.selected_classes)

/-- One entry of the `detections` array (publisher.cpp lines 241-252), in
nlohmann sorted-key dump order; the float confidence is rendered by the
canonical `Rat` representation (no theorem depends on the numeral text). -/
def detEntry (d : ObjectDetectResult) : String :=
  "\x7b\"bbox\":\x7b\"bottom\":" ++ toString d.box.bottom ++
    ",\"left\":" ++ toString d.box.left ++
    ",\"right\":" ++ toString d.box.right ++
    ",\"top\":" ++ toString d.box.top ++
    "\x7d,\"class_id\":" ++ toString d.cls_id ++
    ",\"class_name\":\"" ++ d.name ++
    "\",\"confidence\":" ++ toString d.prop ++ "\x7d"

/-- The dump of the full-JSON object: timestamp, the detections array and
its size (publisher.cpp lines 222-257, keys in nlohmann sorted order). -/
def dumpFull (timestamp : Int) (dets : List ObjectDetectResult) : String :=
  "\x7b\"detection_count\":" ++ toString dets.length ++
    ",\"detections\":[" ++ joinSep "," (dets.map detEntry) ++
    "],\"timestamp\":" ++ toString timestamp ++ "\x7d"

/-- publisher.cpp lines 222-265, `FullJsonMessageFormatter::formatMessage`:
returns the empty string when `suppress_empty` is set and the detections
array is empty, otherwise the dump. -/
def formatMessage (suppress_empty : Bool) (r : InferenceResult) : String :=
  if suppress_empty && (selectedDetections r).isEmpty then ""
  else dumpFull r.timestamp (selectedDetections r)

end FullJsonMessageFormatter

/-- The observable steps of one publisher iteration. -/
inductive PubAction where
  | logNotConnected
  | sendCall (message : String)
  | sleepMs (interval : Option Int)
  deriving DecidableEq, Repr

/-- publisher.cpp line 217: `1000 / target_mps` milliseconds, C `int`
division; `none` models the undefined behavior of dividing by zero. -/
def sleepIntervalMillis (target_mps : Int) : Option Int :=
  if target_mps = 0 then none else some (Int.tdiv 1000 target_mps)

/-- One iteration of `Publisher::operator()` (publisher.cpp lines 203-219)
on a popped result: skip (with a log) when the transport is not connected;
otherwise format, call `send` with the formatted message — there is no
empty-string check between formatting and the `send` call — and sleep. -/
def publisherCycle (connected : Bool) (format : InferenceResult → String)
    (target_mps : Int) (r : InferenceResult) : List PubAction :=
  if !connected then [PubAction.logNotConnected]
  else
    [PubAction.sendCall (format r),
     PubAction.sleepMs (sleepIntervalMillis target_mps)]

/-- The publisher loop over the sequence of results its `pop` returns before
the queue closes. -/
def publisherRun (connected : Bool) (format : InferenceResult → String)
    (target_mps : Int) : List InferenceResult → List PubAction
  | [] => []
  | r :: rest =>
    publisherCycle connected format target_mps r ++
      publisherRun connected format target_mps rest

/-- The payloads of the `send` calls in an action trace. -/
def sentMessages : List PubAction → List String
  | [] => []
  | PubAction.sendCall msg :: rest => msg :: sentMessages rest
  | PubAction.logNotConnected :: rest => sentMessages rest
  | PubAction.sleepMs _ :: rest => sentMessages rest

/-- publisher.cpp lines 190-201: the `Publisher` constructor stores its
arguments — only `target_mps` is retained in the model — and performs no
validation of `messages_per_second`; construction cannot fail, so the
`Option` is always `some`. -/
structure PublisherConfig where
  target_mps : Int
  deriving DecidableEq, Repr

def Publisher.construct (messages_per_second : Int) : Option PublisherConfig :=
  some { target_mps := messages_per_second }

/-- Modelled from the spec: `ThreadSafeQueue` is declared in `queue.h`,
which is not under src/. Spec sections 4.1 and 9: a single-slot
latest-value-wins channel — `push` overwrites any pending value, `pop`
removes and returns the pending value (competing consumers therefore steal
results from one another). main.cpp line 27 instantiates exactly one such
queue with capacity 1. -/
structure ThreadSafeQueue (α : Type) where
  slot : Option α
  deriving DecidableEq, Repr

def ThreadSafeQueue.push {α : Type} (q : ThreadSafeQueue α) (v : α) :
    ThreadSafeQueue α :=
  { slot := some v }

def ThreadSafeQueue.pop {α : Type} (q : ThreadSafeQueue α) :
    Option α × ThreadSafeQueue α :=
  (q.slot, { slot := none })

/-- One publisher of the wiring in main.cpp, identified by its sink and by
the index of the queue it pops from (an index into the list of queues the
program creates). -/
structure PublisherWiring where
  sink : String
  queueIndex : Nat
  deriving DecidableEq, Repr

/-- main.cpp declares exactly one queue (lines 26-27, the global
`resultQueue`). -/
def mainQueueCount : Nat := 1

/-- The continuous-mode wiring of main.cpp lines 178-205: the file publisher
and the two UDP publishers are all constructed on the same global
`resultQueue`, i.e. on queue index 0. -/
def mainPublishers : List PublisherWiring :=
  [{ sink := "file:/tmp/results.json", queueIndex := 0 },
   { sink := "udp:127.0.0.1:5002", queueIndex := 0 },
   { sink := "udp:127.0.0.1:5000", queueIndex := 0 }]

/-- The file-system outcomes a `FileTransport` call can observe. -/
structure FsEnv where
  createDirOk : Bool
  openOk : Bool
  writeOk : Bool
  fsyncOk : Bool
  renameOk : Bool
  deriving DecidableEq, Repr

/-- The file operations `FileTransport::send` attempts, in order. -/
inductive FileOp where
  | openTmp
  | writeData (data : String)
  | fsyncTmp
  | renameTmp
  deriving DecidableEq, Repr

/-- file_transport.cpp lines 9-22: `enabled` starts true and is cleared when
the parent directory of the path is non-empty, missing (`dirMissing`) and
`create_directories` fails; no other code ever writes `enabled`. -/
structure FileTransport where
  filepath : String
  enabled : Bool
  deriving DecidableEq, Repr

def FileTransport.construct (filepath : String) (dirMissing : Bool)
    (env : FsEnv) : FileTransport :=
  { filepath := filepath,
    enabled := if dirMissing ∧ ¬env.createDirOk then false else true }

/-- file_transport.cpp lines 81-83. -/
def FileTransport.isConnected (t : FileTransport) : Bool :=
  t.enabled

/-- file_transport.cpp lines 24-79: a disabled transport returns false at
once, attempting no file operation; otherwise open-write-fsync-rename runs
until the first failing step. The returned transport is the state afterwards
— `send` writes no member, so it is `t` itself on every path. -/
def FileTransport.send (t : FileTransport) (env : FsEnv) (data : String) :
    Bool × FileTransport × List FileOp :=
  if ¬t.enabled then (false, t, [])
  else if ¬env.openOk then (false, t, [FileOp.openTmp])
  else if ¬env.writeOk then (false, t, [FileOp.openTmp, FileOp.writeData data])
  else if ¬env.fsyncOk then
    (false, t, [FileOp.openTmp, FileOp.writeData data, FileOp.fsyncTmp])
  else if ¬env.renameOk then
    (false, t,
      [FileOp.openTmp, FileOp.writeData data, FileOp.fsyncTmp,
        FileOp.renameTmp])
  else
    (true, t,
      [FileOp.openTmp, FileOp.writeData data, FileOp.fsyncTmp,
        FileOp.renameTmp])

/-- A sequence of `send` calls, returning the final transport state. -/
def FileTransport.sendAll (t : FileTransport) (env : FsEnv) :
    List String → FileTransport
  | [] => t
  | d :: ds => FileTransport.sendAll (t.send env d).2.1 env ds

/-- The whitespace characters trimmed by utils.cc lines 138-139
(`find_first_not_of(" \t")`). -/
def isWsChar (c : Char) : Bool :=
  c = ' ' ∨ c = '\t'

/-- Trim of leading and trailing spaces and tabs (utils.cc lines 138-139). -/
def trimWs (s : String) : String :=
  ⟨((s.data.dropWhile isWsChar).reverse.dropWhile isWsChar).reverse⟩

/-- utils.cc lines 126-153, `parseClassNames`: empty selection string means
all classes; otherwise split on commas, trim each segment, skip empty
segments, look the name up in the class mapping and keep the ids found, in
order (unknown names are skipped with a warning). -/
def parseClassNames (classes_str : String)
    (class_mapping : List (String × Int)) : List Int :=
  if classes_str = "" then []
  else
    (classes_str.splitOn ",").foldl
      (fun acc seg =>
        let nm := trimWs seg
        if nm = "" then acc
        else
          match class_mapping.lookup nm with
          | some id => acc ++ [id]
          | none => acc)
      []

/-- main.cpp lines 80-112: the filter handed to the pipeline. With a
non-empty `--classes` string the labels mapping is loaded first and an empty
mapping is a fatal error (`none`, the program exits before the pipeline
starts); afterwards class id 0 is appended whenever it is not already
present (lines 109-112). -/
def resolveSelectedClasses (classes_str : String)
    (class_mapping : List (String × Int)) : Option (List Int) :=
  let base :=
    if classes_str = "" then some []
    else if class_mapping = [] then none
    else some (parseClassNames classes_str class_mapping)
  base.map (fun sel => if sel.contains 0 then sel else sel ++ [0])

/-! ### Supporting lemmas -/

theorem foldl_eq_foldl_filter {α β : Type _} (p : α → Bool) (f : β → α → β)
    (hf : ∀ acc d, p d = false → f acc d = acc) :
    ∀ (l : List α) (init : β), l.foldl f init = (l.filter p).foldl f init := by
  intro l
  induction l with
  | nil => intro init; rfl
  | cons d rest ih =>
    intro init
    cases hp : p d with
    | true => simp only [List.foldl_cons, List.filter_cons, hp, if_true, ih]
    | false =>
      simp [List.foldl_cons, List.filter_cons, hp, hf init d hp, ih]

theorem filter_filter_imp {α : Type _} (p q : α → Bool)
    (h : ∀ a, q a = true → p a = true) :
    ∀ l : List α, (l.filter p).filter q = l.filter q := by
  intro l
  induction l with
  | nil => rfl
  | cons a rest ih =>
    cases hq : q a with
    | true => simp [List.filter_cons, hq, h a hq, ih]
    | false =>
      cases hp : p a with
      | true => simp [List.filter_cons, hq, hp, ih]
      | false => simp [List.filter_cons, hq, hp, ih]

theorem foldl_congr_mem {α β : Type _} (f g : β → α → β) :
    ∀ (l : List α) (init : β), (∀ d ∈ l, ∀ acc, f acc d = g acc d) →
      l.foldl f init = l.foldl g init := by
  intro l
  induction l with
  | nil => intro init _; rfl
  | cons d rest ih =>
    intro init h
    rw [List.foldl_cons, List.foldl_cons, h d (List.mem_cons_self d rest) init]
    exact ih _ (fun d' hd' acc => h d' (List.mem_cons_of_mem _ hd') acc)

theorem removeInvalid_timestamp (r : InferenceResult) :
    (removeInvalid r).timestamp = r.timestamp := rfl

theorem invalid_of_validDetection_false (d : ObjectDetectResult)
    (h : validDetection d = false) : d.prop ≤ 0 ∨ d.cls_id < 0 := by
  unfold validDetection at h
  by_cases hv : d.prop ≤ 0 ∨ d.cls_id < 0
  · exact hv
  · rw [if_neg hv] at h
    exact absurd h (by simp)

theorem validDetection_of_keep (sel : List Int) (d : ObjectDetectResult)
    (h : keepDetection sel d = true) : validDetection d = true := by
  unfold keepDetection at h
  unfold validDetection
  by_cases hv : d.prop ≤ 0 ∨ d.cls_id < 0
  · rw [if_pos hv] at h
    exact absurd h (by simp)
  · rw [if_neg hv]

theorem filter_keep_removeInvalid (sel : List Int)
    (l : List ObjectDetectResult) :
    (l.filter validDetection).filter (keepDetection sel) =
      l.filter (keepDetection sel) :=
  filter_filter_imp validDetection (keepDetection sel)
    (validDetection_of_keep sel) l

theorem extract_removeInvalid (r : InferenceResult) :
    MappedMessageFormatter.extractSelectedClasses (removeInvalid r) =
      MappedMessageFormatter.extractSelectedClasses r :=
  filter_keep_removeInvalid r.selected_classes r.detections

theorem selectedDetections_removeInvalid (r : InferenceResult) :
    FullJsonMessageFormatter.selectedDetections (removeInvalid r) =
      FullJsonMessageFormatter.selectedDetections r :=
  filter_keep_removeInvalid r.selected_classes r.detections

theorem classCounts_removeInvalid (r : InferenceResult) :
    JsonMessageFormatter.classCounts (removeInvalid r) =
      JsonMessageFormatter.classCounts r := by
  unfold JsonMessageFormatter.classCounts
  exact
    (foldl_eq_foldl_filter validDetection _
      (fun acc d hd => by
        rw [if_pos (Or.inl (invalid_of_validDetection_false d hd))])
      r.detections [("person", 0)]).symm

theorem selectiveCounts_removeInvalid (class_mapping : List (String × String))
    (r : InferenceResult) :
    MappedMessageFormatter.selectiveCounts class_mapping (removeInvalid r) =
      MappedMessageFormatter.selectiveCounts class_mapping r := by
  unfold MappedMessageFormatter.selectiveCounts
  rw [extract_removeInvalid]

theorem facesCount_foldl (l : List ObjectDetectResult) :
    ∀ n : Int,
      l.foldl (fun n d => if d.cls_id = 0 then n + 1 else n) n =
        n + ((l.filter (fun d => decide (d.cls_id = 0))).length : Int) := by
  induction l with
  | nil => intro n; simp
  | cons d rest ih =>
    intro n
    by_cases h : d.cls_id = 0
    · simp only [List.foldl_cons, List.filter_cons, h, if_pos, decide_True,
        ih, List.length_cons]
      push_cast
      ring
    · simp only [List.foldl_cons, List.filter_cons, h, if_neg, decide_False,
        ih]
      simp [h]

/-- C1 counterexample input: a single detection with `prop = -1 <= 0` (and
`cls_id = 0`). -/
theorem c1_counterexample :
    (ObjectDetectResult.prop ⟨⟨10, 10, 50, 50⟩, -1, 0, "person"⟩ ≤ 0) ∧
    BSVariableMessageFormatter.formatMessage
        ⟨0, [⟨⟨10, 10, 50, 50⟩, -1, 0, "person"⟩], []⟩ =
      "detection_count:1!!timestamp:0" ∧
    BSVariableMessageFormatter.formatMessage
        (removeInvalid ⟨0, [⟨⟨10, 10, 50, 50⟩, -1, 0, "person"⟩], []⟩) =
      "detection_count:0!!timestamp:0" ∧
    BSVariableMessageFormatter.formatMessage
        ⟨0, [⟨⟨10, 10, 50, 50⟩, -1, 0, "person"⟩], []⟩ ≠
      BSVariableMessageFormatter.formatMessage
        (removeInvalid ⟨0, [⟨⟨10, 10, 50, 50⟩, -1, 0, "person"⟩], []⟩) ∧
    facesPeopleCount ⟨0, [⟨⟨10, 10, 50, 50⟩, -1, 0, "person"⟩], []⟩ = 1 := by
  refine ⟨by norm_num, rfl, ?_, ?_, rfl⟩
  · rfl
  · decide

/-- C1 amended: the Json, SelectiveJson, SelectiveBS and FullJson formatters
compute their output only from detections with `prop > 0` and `cls_id >= 0`
(removing the invalid detections leaves their output unchanged), but
BSVariable reports the raw `detections.count` including invalid detections,
and the Faces formatters count every detection with `cls_id == 0` regardless
of its confidence. -/
theorem c1_amended (b : Bool) (class_mapping : List (String × String))
    (r : InferenceResult) :
    JsonMessageFormatter.formatMessage b (removeInvalid r) =
      JsonMessageFormatter.formatMessage b r ∧
    SelectiveJsonMessageFormatter.formatMessage class_mapping
        (removeInvalid r) =
      SelectiveJsonMessageFormatter.formatMessage class_mapping r ∧
    SelectiveBSMessageFormatter.formatMessage class_mapping
        (removeInvalid r) =
      SelectiveBSMessageFormatter.formatMessage class_mapping r ∧
    FullJsonMessageFormatter.formatMessage b (removeInvalid r) =
      FullJsonMessageFormatter.formatMessage b r ∧
    BSVariableMessageFormatter.formatMessage r =
      "detection_count:" ++ toString r.detections.length ++ "!!" ++
        "timestamp:" ++ toString r.timestamp ∧
    facesPeopleCount r =
      ((r.detections.filter (fun d => decide (d.cls_id = 0))).length : Int) := by
  refine ⟨?_, ?_, ?_, ?_, rfl, ?_⟩
  · unfold JsonMessageFormatter.formatMessage JsonMessageFormatter.fields
    rw [classCounts_removeInvalid, removeInvalid_timestamp]
  · unfold SelectiveJsonMessageFormatter.formatMessage
    rw [selectiveCounts_removeInvalid, removeInvalid_timestamp]
  · unfold SelectiveBSMessageFormatter.formatMessage
    rw [selectiveCounts_removeInvalid, removeInvalid_timestamp]
  · unfold FullJsonMessageFormatter.formatMessage
    rw [selectedDetections_removeInvalid, removeInvalid_timestamp]
  · unfold facesPeopleCount
    rw [facesCount_foldl r.detections 0]
    simp

/-- C5: `isClassSelected(id, filter)` returns true for every id when the
filter is empty, and for every non-empty filter it returns true if and only
if id is an element of the filter. -/
theorem c5_isClassSelected :
    (∀ id : Int, isClassSelected id [] = true) ∧
    (∀ (id : Int) (sel : List Int), sel ≠ [] →
      (isClassSelected id sel = true ↔ id ∈ sel)) := by
  constructor
  · intro id; rfl
  · intro id sel hne
    cases sel with
    | nil => exact absurd rfl hne
    | cons a l => simp [isClassSelected]

/-- Witness for C5 at a concrete id and filter. -/
theorem c5_isClassSelected_witness :
    isClassSelected 5 [] = true ∧
    (isClassSelected 2 [1, 2] = true ↔ (2 : Int) ∈ [1, 2]) :=
  ⟨c5_isClassSelected.1 5, c5_isClassSelected.2 2 [1, 2] (by decide)⟩

/-- C2 counterexample: the transport is connected, the FullJson formatter is
configured to suppress-empty and the popped result has no detections, so the
formatter returns the empty string — yet the publisher iteration still calls
`send`, with the empty string as payload. -/
theorem c2_counterexample :
    FullJsonMessageFormatter.formatMessage true ⟨100, [], [0]⟩ = "" ∧
    publisherCycle true (FullJsonMessageFormatter.formatMessage true) 1
        ⟨100, [], [0]⟩ =
      [PubAction.sendCall "", PubAction.sleepMs (some 1000)] :=
  ⟨rfl, rfl⟩

/-- C2 amended: the publisher loop calls `send` for every popped result
whenever the transport is connected, with the formatted message as payload
regardless of whether it is empty (there is no suppress-on-empty check); when
the transport is not connected no `send` happens. -/
theorem c2_amended (format : InferenceResult → String) (target_mps : Int) :
    (∀ results : List InferenceResult,
      sentMessages (publisherRun true format target_mps results) =
        results.map format) ∧
    (∀ results : List InferenceResult,
      sentMessages (publisherRun false format target_mps results) = []) := by
  constructor <;> intro results <;> induction results with
  | nil => rfl
  | cons r rest ih => simp [publisherRun, publisherCycle, sentMessages, ih]

/-- C3: the wiring of main.cpp attaches all three publishers to the one
global queue (queue index 0 of the single queue the program creates), and a
value pushed into a single-slot queue is observed by at most one consumer —
the first `pop` removes it and a second `pop` finds nothing. -/
theorem c3_shared_queue_wiring :
    mainQueueCount = 1 ∧
    mainPublishers.map PublisherWiring.queueIndex = [0, 0, 0] ∧
    (∀ (q : ThreadSafeQueue InferenceResult) (v : InferenceResult),
      (ThreadSafeQueue.push q v).pop.1 = some v ∧
      ((ThreadSafeQueue.push q v).pop.2).pop.1 = none) :=
  ⟨rfl, rfl, fun q v => ⟨rfl, rfl⟩⟩

/-- C4: the Publisher constructor accepts a zero or negative
`messages_per_second` without any validation (construction never fails), and
the loop's sleep interval `1000 / target_mps` is undefined (division by
zero) at rate 0. -/
theorem c4_rate_not_validated :
    Publisher.construct 0 = some { target_mps := 0 } ∧
    Publisher.construct (-5) = some { target_mps := -5 } ∧
    sleepIntervalMillis 0 = none ∧
    sleepIntervalMillis 1 = some 1000 :=
  ⟨rfl, rfl, rfl, rfl⟩

/-- C8: when the target directory cannot be created at construction, the
FileTransport reports not connected, every `send` returns false immediately
with no file operation attempted and with the transport state unchanged, and
no sequence of `send` calls re-enables it. -/
theorem c8_fileTransport_disabled (fp : String) (env env' : FsEnv)
    (data : String) (msgs : List String) :
    (FileTransport.construct fp true
        { env with createDirOk := false }).isConnected = false ∧
    (FileTransport.construct fp true { env with createDirOk := false }).send
        env' data =
      (false, FileTransport.construct fp true { env with createDirOk := false },
        []) ∧
    ((FileTransport.construct fp true
        { env with createDirOk := false }).sendAll env'
          msgs).isConnected = false := by
  have hen : (FileTransport.construct fp true
      { env with createDirOk := false }).enabled = false := by
    simp [FileTransport.construct]
  have hsend : ∀ d : String,
      (FileTransport.construct fp true { env with createDirOk := false }).send
          env' d =
        (false,
          FileTransport.construct fp true { env with createDirOk := false },
          []) := by
    intro d
    unfold FileTransport.send
    rw [hen]
    simp
  have hall : ∀ ms : List String,
      (FileTransport.construct fp true
          { env with createDirOk := false }).sendAll env' ms =
        FileTransport.construct fp true { env with createDirOk := false } := by
    intro ms
    induction ms with
    | nil => rfl
    | cons d ds ih => simp [FileTransport.sendAll, hsend d, ih]
  exact ⟨hen, hsend data, by rw [hall msgs]; exact hen⟩

/-- C9: whenever main resolves a class filter and hands it to the pipeline
(no fatal configuration error), the filter contains class id 0. -/
theorem c9_filter_contains_zero (classes_str : String)
    (class_mapping : List (String × Int)) (f : List Int)
    (h : resolveSelectedClasses classes_str class_mapping = some f) :
    (0 : Int) ∈ f := by
  unfold resolveSelectedClasses at h
  rcases Option.map_eq_some'.mp h with ⟨sel, _, hf⟩
  by_cases hc : sel.contains 0 = true
  · rw [if_pos hc] at hf
    subst hf
    simpa using hc
  · rw [if_neg hc] at hf
    subst hf
    simp

/-- Witness for C9: the default configuration (no `--classes`) resolves to
the filter `[0]`. -/
theorem c9_witness :
    resolveSelectedClasses "" [] = some [0] ∧ (0 : Int) ∈ [(0 : Int)] :=
  ⟨rfl, c9_filter_contains_zero "" [] [0] rfl⟩

theorem getField_setKey :
    ∀ (j : List (String × Int)) (k' : String) (v : Int) (k : String),
      getField (setKey j k' v) k = if k' = k then some v else getField j k := by
  intro j
  induction j with
  | nil =>
    intro k' v k
    simp only [setKey, getField]
  | cons e rest ih =>
    intro k' v k
    obtain ⟨a, b⟩ := e
    by_cases h1 : a = k'
    · subst h1
      rw [setKey, if_pos rfl]
      by_cases h2 : a = k
      · simp [getField, h2]
      · simp [getField, h2]
    · rw [setKey, if_neg h1]
      by_cases h2 : a = k
      · have h3 : k' ≠ k := fun he => h1 (h2.trans he.symm)
        simp [getField, h2, h3]
      · simp [getField, h2, ih]

theorem getField_foldl_setKey_not_mem :
    ∀ (l : List (String × Int)) (j : List (String × Int)) (k : String),
      k ∉ l.map Prod.fst →
      getField (l.foldl (fun j e => setKey j e.1 e.2) j) k = getField j k := by
  intro l
  induction l with
  | nil => intro j k _; rfl
  | cons e rest ih =>
    intro j k h
    have hne : e.1 ≠ k := by
      intro hk
      exact h (by rw [List.map_cons, hk]; exact List.mem_cons_self _ _)
    rw [List.foldl_cons,
      ih _ k (fun hm => h (by rw [List.map_cons]; exact List.mem_cons_of_mem _ hm)),
      getField_setKey, if_neg hne]

theorem getField_foldl_setKey_isSome :
    ∀ (l : List (String × Int)) (j : List (String × Int)) (k : String),
      (getField j k).isSome →
      (getField (l.foldl (fun j e => setKey j e.1 e.2) j) k).isSome := by
  intro l
  induction l with
  | nil => intro j k h; exact h
  | cons e rest ih =>
    intro j k h
    rw [List.foldl_cons]
    apply ih
    rw [getField_setKey]
    by_cases he : e.1 = k
    · rw [if_pos he]; rfl
    · rw [if_neg he]; exact h

theorem keys_bump_not_mem (k nm : String) (hne : nm ≠ k) :
    ∀ l : List (String × Int), k ∉ l.map Prod.fst →
      k ∉ (bumpCount l nm).map Prod.fst := by
  intro l
  induction l with
  | nil =>
    intro _
    simp [bumpCount]
    exact fun he => hne he.symm
  | cons e rest ih =>
    intro h
    obtain ⟨a, b⟩ := e
    by_cases ha : a = nm
    · rw [bumpCount, if_pos ha]
      simpa using h
    · rw [bumpCount, if_neg ha]
      rw [List.map_cons, List.mem_cons] at h ⊢
      push_neg at h ⊢
      exact ⟨h.1, ih h.2⟩

theorem bump_fold_head (k : String) :
    ∀ (names : List String) (n : Int) (rest : List (String × Int)),
      k ∉ rest.map Prod.fst →
      ∃ n' rest',
        names.foldl bumpCount ((k, n) :: rest) = (k, n') :: rest' ∧
        n ≤ n' ∧ k ∉ rest'.map Prod.fst ∧
        ((∀ nm ∈ names, nm ≠ k) → n' = n) := by
  intro names
  induction names with
  | nil => intro n rest h; exact ⟨n, rest, rfl, le_refl n, h, fun _ => rfl⟩
  | cons nm names ih =>
    intro n rest h
    rw [List.foldl_cons]
    by_cases hnm : k = nm
    · have hb : bumpCount ((k, n) :: rest) nm = (k, n + 1) :: rest := by
        rw [bumpCount, if_pos hnm]
      rw [hb]
      obtain ⟨n', rest', heq, hle, hk, _⟩ := ih (n + 1) rest h
      exact ⟨n', rest', heq, le_trans (by omega) hle, hk,
        fun hAll => absurd hnm.symm (hAll nm (List.mem_cons_self _ _))⟩
    · have hb : bumpCount ((k, n) :: rest) nm = (k, n) :: bumpCount rest nm := by
        rw [bumpCount, if_neg hnm]
      rw [hb]
      have hk2 : k ∉ (bumpCount rest nm).map Prod.fst :=
        keys_bump_not_mem k nm (fun he => hnm he.symm) rest h
      obtain ⟨n', rest', heq, hle, hk', hall⟩ := ih n (bumpCount rest nm) hk2
      exact ⟨n', rest', heq, hle, hk',
        fun hAll => hall (fun x hx => hAll x (List.mem_cons_of_mem _ hx))⟩

theorem keep_false_skip (sel : List Int) (d : ObjectDetectResult)
    (h : keepDetection sel d = false) :
    (d.prop ≤ 0 ∨ d.cls_id < 0) ∨ ¬(isClassSelected d.cls_id sel = true) := by
  unfold keepDetection at h
  by_cases hv : d.prop ≤ 0 ∨ d.cls_id < 0
  · exact Or.inl hv
  · rw [if_neg hv] at h
    exact Or.inr (by simp [h])

theorem keep_true_no_skip (sel : List Int) (d : ObjectDetectResult)
    (h : keepDetection sel d = true) :
    ¬((d.prop ≤ 0 ∨ d.cls_id < 0) ∨ ¬(isClassSelected d.cls_id sel = true)) := by
  unfold keepDetection at h
  by_cases hv : d.prop ≤ 0 ∨ d.cls_id < 0
  · rw [if_pos hv] at h
    exact absurd h (by simp)
  · rw [if_neg hv] at h
    exact fun hc => hc.elim hv (fun hs => hs h)

theorem classCounts_eq_names (r : InferenceResult) :
    JsonMessageFormatter.classCounts r =
      ((r.detections.filter (keepDetection r.selected_classes)).map
        ObjectDetectResult.name).foldl bumpCount [("person", 0)] := by
  unfold JsonMessageFormatter.classCounts
  rw [List.foldl_map,
    foldl_eq_foldl_filter (keepDetection r.selected_classes) _
      (fun acc d hd => by rw [if_pos (keep_false_skip _ d hd)])
      r.detections [("person", 0)]]
  exact
    foldl_congr_mem _ _ _ [("person", 0)]
      (fun d hd acc => by
        rw [if_neg
          (keep_true_no_skip _ d (List.of_mem_filter hd))])

theorem selectiveCounts_eq_names (class_mapping : List (String × String))
    (r : InferenceResult) :
    MappedMessageFormatter.selectiveCounts class_mapping r =
      ((MappedMessageFormatter.extractSelectedClasses r).map
        (fun d => MappedMessageFormatter.mapClassName class_mapping d.name)).foldl
        bumpCount [("person", 0)] := by
  unfold MappedMessageFormatter.selectiveCounts
  rw [List.foldl_map]

theorem dumpIntFields_ne_empty (fields : List (String × Int)) :
    dumpIntFields fields ≠ "" := by
  unfold dumpIntFields
  intro h
  have hlen := congrArg String.length h
  rw [String.length_append, String.length_append] at hlen
  have h1 : ("\x7b" : String).length = 1 := rfl
  have h2 : ("\x7d" : String).length = 1 := rfl
  have h0 : ("" : String).length = 0 := rfl
  omega

/-- C10: `JsonMessageFormatter::formatMessage` ignores the `suppress_empty`
value it was constructed with (so the `--suppress-empty` flag wired into it
in main.cpp lines 140-141 has no effect on the file-sink output), never
returns the empty string, and its JSON object always carries a `timestamp`
field and a `person` field with value at least 0. -/
theorem c10_jsonFormatter :
    (∀ (b b' : Bool) (r : InferenceResult),
      JsonMessageFormatter.formatMessage b r =
        JsonMessageFormatter.formatMessage b' r) ∧
    (∀ (b : Bool) (r : InferenceResult),
      JsonMessageFormatter.formatMessage b r ≠ "") ∧
    (∀ r : InferenceResult,
      (getField (JsonMessageFormatter.fields r) "timestamp").isSome) ∧
    (∀ r : InferenceResult, ∃ n : Int,
      getField (JsonMessageFormatter.fields r) "person" = some n ∧ 0 ≤ n) := by
  refine ⟨fun b b' r => rfl, fun b r => dumpIntFields_ne_empty _, ?_, ?_⟩
  · intro r
    unfold JsonMessageFormatter.fields
    exact getField_foldl_setKey_isSome _ _ _ (by simp [getField])
  · intro r
    obtain ⟨n', rest', heq, hle, hk, _⟩ :=
      bump_fold_head "person"
        ((r.detections.filter (keepDetection r.selected_classes)).map
          ObjectDetectResult.name) 0 [] (by simp)
    refine ⟨n', ?_, hle⟩
    unfold JsonMessageFormatter.fields
    rw [classCounts_eq_names, heq, List.foldl_cons,
      getField_foldl_setKey_not_mem rest' _ "person" hk, getField_setKey,
      if_pos rfl]

theorem eq_empty_of_length_zero (t : String) (h : t.length = 0) : t = "" :=
  String.ext (List.length_eq_zero.mp h)

theorem append_ne_empty_of_right (s t : String) (h : t ≠ "") : s ++ t ≠ "" := by
  intro he
  have hlen := congrArg String.length he
  rw [String.length_append] at hlen
  have h0 : ("" : String).length = 0 := rfl
  exact h (eq_empty_of_length_zero t (by omega))

theorem concatAll_append (xs ys : List String) :
    concatAll (xs ++ ys) = concatAll xs ++ concatAll ys := by
  induction xs with
  | nil => simp [concatAll]
  | cons x xs ih => simp [concatAll, ih, String.append_assoc]

theorem joinSep_cons_concat (sep : String) (x : String) (xs : List String) :
    joinSep sep (x :: xs) = x ++ concatAll (xs.map (fun y => sep ++ y)) := by
  induction xs generalizing x with
  | nil => simp [joinSep, concatAll]
  | cons y ys ih =>
    rw [joinSep, ih y]
    simp [concatAll, String.append_assoc]

theorem bodyFold_false (l : List (String × Int)) :
    ∀ s : String,
      l.foldl SelectiveBSMessageFormatter.bodyStep (s, false) =
        (s ++ concatAll (l.map (fun e => "!!" ++ entryStr e)), false) := by
  induction l with
  | nil => intro s; simp [concatAll]
  | cons e es ih =>
    intro s
    rw [List.foldl_cons]
    have hb : SelectiveBSMessageFormatter.bodyStep (s, false) e =
        (s ++ "!!" ++ entryStr e, false) := by
      simp [SelectiveBSMessageFormatter.bodyStep]
    rw [hb, ih]
    simp [concatAll, String.append_assoc]

theorem selectiveBS_body_join (c : String × Int) (cs : List (String × Int)) :
    ((c :: cs).foldl SelectiveBSMessageFormatter.bodyStep ("", true)).1 =
      joinSep "!!" ((c :: cs).map entryStr) := by
  rw [List.foldl_cons]
  have h0 : SelectiveBSMessageFormatter.bodyStep ("", true) c =
      (entryStr c, false) := by
    simp [SelectiveBSMessageFormatter.bodyStep]
  rw [h0, bodyFold_false, List.map_cons, joinSep_cons_concat, List.map_map]
  rfl

theorem entry_append_ne_empty (c : String × Int) (K : String) :
    entryStr c ++ K ≠ "" := by
  intro h
  have hlen := congrArg String.length h
  rw [String.length_append] at hlen
  unfold entryStr at hlen
  rw [String.length_append, String.length_append] at hlen
  have h1 : (":" : String).length = 1 := rfl
  have h0 : ("" : String).length = 0 := rfl
  omega

theorem joinSep_ne_empty_head (c : String × Int) (cs : List (String × Int)) :
    joinSep "!!" ((c :: cs).map entryStr) ≠ "" := by
  rw [List.map_cons, joinSep_cons_concat]
  exact entry_append_ne_empty c _

theorem joinSep_append_last (sep y x : String) (xs : List String) :
    joinSep sep ((x :: xs) ++ [y]) = joinSep sep (x :: xs) ++ sep ++ y := by
  rw [List.cons_append, joinSep_cons_concat, joinSep_cons_concat,
    List.map_append, concatAll_append]
  simp [concatAll, String.append_assoc]

theorem selectiveBS_eq_joinSep (class_mapping : List (String × String))
    (r : InferenceResult) (c : String × Int) (cs : List (String × Int))
    (hc : MappedMessageFormatter.selectiveCounts class_mapping r = c :: cs) :
    SelectiveBSMessageFormatter.formatMessage class_mapping r =
      joinSep "!!" (SelectiveBSMessageFormatter.fieldsOf class_mapping r ++
        ["timestamp:" ++ toString r.timestamp]) := by
  simp only [SelectiveBSMessageFormatter.formatMessage,
    SelectiveBSMessageFormatter.fieldsOf]
  rw [hc, selectiveBS_body_join, if_neg (joinSep_ne_empty_head c cs),
    List.map_cons,
    joinSep_append_last "!!" ("timestamp:" ++ toString r.timestamp)
      (entryStr c) (cs.map entryStr)]
  rw [String.append_assoc]

/-- C6: a SelectiveBS message is always the `name:count` entries joined by
`!!` with the timestamp as the final field; the `person:0` floor entry is
present whenever no valid, filter-selected detection is (possibly after
renaming) named `person`; in particular the empty detection list with filter
`{0}` formats to `person:0!!timestamp:<t>`. -/
theorem c6_selectiveBS :
    (∀ (class_mapping : List (String × String)) (r : InferenceResult),
      SelectiveBSMessageFormatter.formatMessage class_mapping r =
        joinSep "!!" (SelectiveBSMessageFormatter.fieldsOf class_mapping r ++
          ["timestamp:" ++ toString r.timestamp])) ∧
    (∀ (class_mapping : List (String × String)) (r : InferenceResult),
      (∀ d ∈ MappedMessageFormatter.extractSelectedClasses r,
        MappedMessageFormatter.mapClassName class_mapping d.name ≠ "person") →
      "person:0" ∈ SelectiveBSMessageFormatter.fieldsOf class_mapping r) ∧
    (∀ t : Int,
      SelectiveBSMessageFormatter.formatMessage []
          { timestamp := t, detections := [], selected_classes := [0] } =
        "person:0!!timestamp:" ++ toString t) := by
  refine ⟨?_, ?_, ?_⟩
  · intro class_mapping r
    obtain ⟨n', rest', heq, _, _, _⟩ :=
      bump_fold_head "person"
        ((MappedMessageFormatter.extractSelectedClasses r).map
          (fun d => MappedMessageFormatter.mapClassName class_mapping d.name))
        0 [] (by simp)
    exact
      selectiveBS_eq_joinSep class_mapping r ("person", n') rest'
        ((selectiveCounts_eq_names class_mapping r).trans heq)
  · intro class_mapping r h
    obtain ⟨n', rest', heq, _, _, hzero⟩ :=
      bump_fold_head "person"
        ((MappedMessageFormatter.extractSelectedClasses r).map
          (fun d => MappedMessageFormatter.mapClassName class_mapping d.name))
        0 [] (by simp)
    have hn : n' = 0 := by
      refine hzero ?_
      intro nm hnm
      rcases List.mem_map.mp hnm with ⟨d, hd, hdeq⟩
      rw [← hdeq]
      exact h d hd
    have hc : MappedMessageFormatter.selectiveCounts class_mapping r =
        ("person", 0) :: rest' := by
      rw [selectiveCounts_eq_names, heq, hn]
    unfold SelectiveBSMessageFormatter.fieldsOf
    rw [hc, List.map_cons,
      show entryStr ("person", 0) = "person:0" from rfl]
    exact List.mem_cons_self _ _
  · intro t
    rfl

/-- Witness for C6 at the concrete empty result with filter `{0}`: the
no-person hypothesis is discharged vacuously. -/
theorem c6_selectiveBS_witness :
    "person:0" ∈ SelectiveBSMessageFormatter.fieldsOf []
      { timestamp := 5, detections := [], selected_classes := [0] } :=
  c6_selectiveBS.2.1 []
    { timestamp := 5, detections := [], selected_classes := [0] }
    (fun d hd => absurd hd (List.not_mem_nil d))

theorem fullJson_dump_ne_empty (t : Int) (dets : List ObjectDetectResult) :
    FullJsonMessageFormatter.dumpFull t dets ≠ "" :=
  append_ne_empty_of_right _ "\x7d" (by decide)

/-- C7: with `suppress_empty` set, `FullJsonMessageFormatter::formatMessage`
returns the empty string exactly when no valid, filter-selected detection
exists; otherwise it returns the dump of the JSON object carrying the
timestamp, the detection count, and one detection entry (class id, class
name, confidence, bbox) per valid, filter-selected detection. -/
theorem c7_fullJson_suppress (r : InferenceResult) :
    (FullJsonMessageFormatter.formatMessage true r = "" ↔
      FullJsonMessageFormatter.selectedDetections r = []) ∧
    (FullJsonMessageFormatter.selectedDetections r ≠ [] →
      FullJsonMessageFormatter.formatMessage true r =
        FullJsonMessageFormatter.dumpFull r.timestamp
          (FullJsonMessageFormatter.selectedDetections r)) := by
  unfold FullJsonMessageFormatter.formatMessage
  cases hsel : FullJsonMessageFormatter.selectedDetections r with
  | nil => simp
  | cons d ds =>
    have hdump := fullJson_dump_ne_empty r.timestamp (d :: ds)
    simp [hdump]

/-- Witness for C7 at a result with one valid selected detection. -/
theorem c7_fullJson_suppress_witness :
    FullJsonMessageFormatter.selectedDetections
        ⟨100, [⟨⟨10, 10, 50, 50⟩, 1, 0, "person"⟩], []⟩ ≠ [] ∧
    FullJsonMessageFormatter.formatMessage true
        ⟨100, [⟨⟨10, 10, 50, 50⟩, 1, 0, "person"⟩], []⟩ =
      FullJsonMessageFormatter.dumpFull 100
        (FullJsonMessageFormatter.selectedDetections
          ⟨100, [⟨⟨10, 10, 50, 50⟩, 1, 0, "person"⟩], []⟩) :=
  ⟨by decide,
    (c7_fullJson_suppress ⟨100, [⟨⟨10, 10, 50, 50⟩, 1, 0, "person"⟩], []⟩).2
      (by decide)⟩
